import Mathlib

/-!
Verification of the process-supervisor core of the repository
(crates `appruntime`, `appflow`, `appflow-std`).

The Rust code is shallowly embedded. OS process control (spawn / kill /
wait / try_wait) is modelled by an explicit `OS` state carrying oracles
that decide the outcome of each syscall, a call counter that doubles as a
fresh-pid supply, and traces of the spawns and kills actually performed.
A `tokio::process::Child` (resp. `std::process::Child`) handle is
modelled by the `Nat` pid returned by the spawn that created it.
`IndexMap<String, AppProcess>` is modelled by a `List AppProcess` in
insertion order, with the key stored in the `id` field; `insert` keeps
the position of an existing key and replaces its value, exactly as
`IndexMap::insert` does.  Locking (`RwLock`) serialises every operation
in the source, so each operation is embedded as a sequential function
from registry (and OS) state to registry (and OS) state.
-/

namespace Supervisor

/-- `ProcessStatus` (`appruntime/src/lib.rs` lines 45-50, identical in
`appflow-std/src/runtime.rs` lines 10-15): `Running` or `Stopped`,
with `Stopped` as the `#[default]` variant. -/
inductive ProcessStatus
  | Running
  | Stopped
deriving DecidableEq, Repr

/-- `AppProcess` (`appruntime/src/lib.rs` lines 62-69): id, command,
optional OS child handle (modelled as a pid), cached status, args. -/
structure AppProcess where
  id : String
  command : String
  process : Option Nat
  status : ProcessStatus
  args : List String
deriving DecidableEq, Repr

/-- `AppError` (`appruntime/src/lib.rs` lines 71-77): the only two
variants are `NotFound(String)` and `SubProcess(io::Error)`; the
`io::Error` payload is modelled as a `Nat` code.  There is no
`DuplicateId` variant anywhere in the repository. -/
inductive AppError
  | NotFound (id : String)
  | SubProcess (code : Nat)
deriving DecidableEq, Repr

/-- `AppProcess::new` (`appruntime/src/lib.rs` lines 81-90):
`..Default::default()` leaves `process = None` and
`status = ProcessStatus::Stopped` (the default variant). -/
def AppProcess.new (id command : String) (args : List String) : AppProcess :=
  { id := id, command := command, process := none,
    status := ProcessStatus.Stopped, args := args }

/-- Record of one successful `Command::new(command).args(args).spawn()`. -/
structure SpawnCall where
  command : String
  args : List String
deriving DecidableEq, Repr

/-- The OS model: oracles deciding each syscall's outcome, a spawn-call
counter used as the fresh-pid supply, and traces of performed spawns and
kills.  `spawnOk n` is the outcome of the n-th spawn call, `killOk pid`
the outcome of `Child::kill`, `waitOk pid` the outcome of `Child::wait`,
and `tryWaitRes pid` the outcome of `Child::try_wait`
(`none` = `Err(_)`, `some none` = `Ok(None)` i.e. still alive,
`some (some c)` = `Ok(Some(status))` i.e. exited). -/
structure OS where
  spawnOk : Nat → Bool
  killOk : Nat → Bool
  waitOk : Nat → Bool
  tryWaitRes : Nat → Option (Option Nat)
  spawnCount : Nat
  spawned : List SpawnCall
  killed : List Nat

/-- `Command::new(cmd).args(args).spawn()`: consumes one call index; on
success the new child's pid is that index and the call is recorded. -/
def OS.spawn (os : OS) (cmd : String) (args : List String) :
    OS × Except AppError Nat :=
  if os.spawnOk os.spawnCount then
    ({ os with spawnCount := os.spawnCount + 1,
               spawned := os.spawned ++ [⟨cmd, args⟩] },
      Except.ok os.spawnCount)
  else
    ({ os with spawnCount := os.spawnCount + 1 },
      Except.error (AppError.SubProcess os.spawnCount))

/-- `Child::kill`: records the killed pid on success. -/
def OS.kill (os : OS) (pid : Nat) : OS × Except AppError Unit :=
  if os.killOk pid then
    ({ os with killed := os.killed ++ [pid] }, Except.ok ())
  else
    (os, Except.error (AppError.SubProcess pid))

/-- `Child::wait` on an already-spawned child (used by the verification
run inside `AppRuntime::restart`); the exit status itself is never
inspected by the source, so only success/failure is modelled. -/
def OS.wait (os : OS) (pid : Nat) : OS × Except AppError Unit :=
  if os.waitOk pid then (os, Except.ok ())
  else (os, Except.error (AppError.SubProcess pid))

/-- The registry contents: `IndexMap<String, AppProcess>` in insertion
order, keys being the `id` fields. -/
abbrev Registry := List AppProcess

/-- `IndexMap::insert`: if the key is present, replace the value in
place (position kept); otherwise append at the end. -/
def indexInsert (reg : Registry) (app : AppProcess) : Registry :=
  if reg.any (fun p => decide (p.id = app.id)) then
    reg.map (fun p => if p.id = app.id then app else p)
  else reg ++ [app]

/-- `IndexMap::get` / `get_mut` lookup: the entry with the given id
(ids are unique in any registry built through `indexInsert`). -/
def getApp (reg : Registry) (id : String) : Option AppProcess :=
  reg.find? (fun p => decide (p.id = id))

/-- Write-back of an in-place `get_mut` mutation: replace the first
(unique) entry with the given id. -/
def setFirst : Registry → String → AppProcess → Registry
  | [], _, _ => []
  | p :: rest, id, app =>
    if p.id = id then app :: rest else p :: setFirst rest id app

/-- `AppRuntime::add_process` (`appruntime/src/lib.rs` lines 125-133):
takes the write lock and does `process.insert(app.id.clone(), app)` —
nothing else.  It cannot fail (return type is `()`), and a colliding id
silently replaces the existing handle. -/
def add_process (reg : Registry) (app : AppProcess) : Registry :=
  indexInsert reg app

/-- An entry right after its OS process was spawned:
`app.process = Some(child); app.status = ProcessStatus::Running`. -/
def startedEntry (pid : Nat) (a : AppProcess) : AppProcess :=
  { a with process := some pid, status := ProcessStatus.Running }

/-- The entries a fully successful run of the `start_all` loop produces
from consecutive fresh pids starting at `base`. -/
def startedFrom (base : Nat) : List AppProcess → List AppProcess
  | [] => []
  | a :: rest => startedEntry base a :: startedFrom (base + 1) rest

/-- Loop body of `AppRuntime::start_all` (`appruntime/src/lib.rs` lines
220-232): iterate the map in insertion order; spawn each entry's command
with its args; on success store the child and set `Running`; the `?` on a
failed spawn aborts the loop, leaving the current and later entries
untouched and the earlier ones already mutated. -/
def start_all_go (os : OS) (done : Registry) :
    List AppProcess → OS × Registry × Except AppError Unit
  | [] => (os, done, Except.ok ())
  | a :: rest =>
    match os.spawn a.command a.args with
    | (os1, Except.ok pid) =>
        start_all_go os1 (done ++ [startedEntry pid a]) rest
    | (os1, Except.error e) => (os1, done ++ a :: rest, Except.error e)

/-- `AppRuntime::start_all` (`appruntime/src/lib.rs` lines 220-232),
identical in `appflow-std/src/runtime.rs` lines 119-131. -/
def start_all (os : OS) (reg : Registry) :
    OS × Registry × Except AppError Unit :=
  start_all_go os [] reg

/-- The guard shared by `restart` and the std `restart_process`:
`if app.status == Running { if let Some(p) = &mut app.process
{ p.kill().await.log()?; } }` — kill only when the cached status is
`Running` and a handle exists; a kill failure propagates before any
field of the entry was written. -/
def killIfRunning (os : OS) (app : AppProcess) : OS × Except AppError Unit :=
  if app.status = ProcessStatus.Running then
    match app.process with
    | some pid => os.kill pid
    | none => (os, Except.ok ())
  else (os, Except.ok ())

/-- Name of the flag the `appruntime` restart pushes onto the args of
its verification run (`args.push("--update".to_string())`,
`appruntime/src/lib.rs` line 164). -/
def updFlag : String := "--update"

/-- `AppRuntime::restart` (`appruntime/src/lib.rs` lines 156-181): kill
the old child if `Running`; spawn `command` with `args ++ ["--update"]`
and wait for that run to exit; then spawn `command` with the original
`args`, store the new child and set `Running`.  Every failure (`?`)
returns before the entry's fields are written. -/
def restart (os : OS) (app : AppProcess) :
    OS × AppProcess × Except AppError Unit :=
  match killIfRunning os app with
  | (os1, Except.error e) => (os1, app, Except.error e)
  | (os1, Except.ok _) =>
    match os1.spawn app.command (app.args ++ [updFlag]) with
    | (os2, Except.error e) => (os2, app, Except.error e)
    | (os2, Except.ok cpid) =>
      match os2.wait cpid with
      | (os3, Except.error e) => (os3, app, Except.error e)
      | (os3, Except.ok _) =>
        match os3.spawn app.command app.args with
        | (os4, Except.error e) => (os4, app, Except.error e)
        | (os4, Except.ok pid) => (os4, startedEntry pid app, Except.ok ())

/-- `AppRuntime::restart_process` (`appruntime/src/lib.rs` lines
234-243): look the id up under the write lock; delegate to
`Self::restart` on the entry in place; `Err(AppError::NotFound(id))`
without touching anything when the id is absent. -/
def restart_process (os : OS) (reg : Registry) (id : String) :
    OS × Registry × Except AppError Unit :=
  match getApp reg id with
  | some app =>
    match restart os app with
    | (os1, app1, r) => (os1, setFirst reg id app1, r)
  | none => (os, reg, Except.error (AppError.NotFound id))

/-- Per-entry body of `AppRuntime::restart_process` in
`appflow-std/src/runtime.rs` lines 133-155: kill the old child if
`Running`, then spawn `command` with the unmodified `args` (no
verification run), store the child, set `Running`. -/
def std_restart_entry (os : OS) (app : AppProcess) :
    OS × AppProcess × Except AppError Unit :=
  match killIfRunning os app with
  | (os1, Except.error e) => (os1, app, Except.error e)
  | (os1, Except.ok _) =>
    match os1.spawn app.command app.args with
    | (os2, Except.error e) => (os2, app, Except.error e)
    | (os2, Except.ok pid) => (os2, startedEntry pid app, Except.ok ())

/-- `AppRuntime::restart_process` (`appflow-std/src/runtime.rs` lines
133-155): lookup plus the inline per-entry body above; `NotFound` when
the id is absent. -/
def std_restart_process (os : OS) (reg : Registry) (id : String) :
    OS × Registry × Except AppError Unit :=
  match getApp reg id with
  | some app =>
    match std_restart_entry os app with
    | (os1, app1, r) => (os1, setFirst reg id app1, r)
  | none => (os, reg, Except.error (AppError.NotFound id))

/-- `AppRuntime::stop` (`appruntime/src/lib.rs` lines 183-192), and the
inline body of `stop_process`/`stop_all` in
`appflow-std/src/runtime.rs`: if the cached status is `Running`, kill
the child (a kill failure propagates before the status is written) and
set `Stopped`; an already-`Stopped` entry is returned untouched with
`Ok(())`.  The handle is not cleared. -/
def stop (os : OS) (app : AppProcess) :
    OS × AppProcess × Except AppError Unit :=
  if app.status = ProcessStatus.Running then
    match app.process with
    | some pid =>
      match os.kill pid with
      | (os1, Except.ok _) =>
          (os1, { app with status := ProcessStatus.Stopped }, Except.ok ())
      | (os1, Except.error e) => (os1, app, Except.error e)
    | none => (os, { app with status := ProcessStatus.Stopped }, Except.ok ())
  else (os, app, Except.ok ())

/-- `AppRuntime::stop_process` (`appruntime/src/lib.rs` lines 274-283):
lookup then `Self::stop` in place; `NotFound` when absent. -/
def stop_process (os : OS) (reg : Registry) (id : String) :
    OS × Registry × Except AppError Unit :=
  match getApp reg id with
  | some app =>
    match stop os app with
    | (os1, app1, r) => (os1, setFirst reg id app1, r)
  | none => (os, reg, Except.error (AppError.NotFound id))

/-- Loop body of `AppRuntime::stop_all` (`appruntime/src/lib.rs` lines
285-291): `Self::stop(app, id).await?` over the map in insertion order;
the first failure aborts, keeping the mutations already committed. -/
def stop_all_go (os : OS) (done : Registry) :
    List AppProcess → OS × Registry × Except AppError Unit
  | [] => (os, done, Except.ok ())
  | a :: rest =>
    match stop os a with
    | (os1, a1, Except.ok _) => stop_all_go os1 (done ++ [a1]) rest
    | (os1, a1, Except.error e) => (os1, done ++ a1 :: rest, Except.error e)

/-- `AppRuntime::stop_all` (`appruntime/src/lib.rs` lines 285-291); the
`appflow-std` variant (`appflow-std/src/runtime.rs` lines 196-208) has
the same body with `stop` inlined. -/
def stop_all (os : OS) (reg : Registry) :
    OS × Registry × Except AppError Unit :=
  stop_all_go os [] reg

/-- `AppRuntime::check_status` (`appruntime/src/lib.rs` lines 293-301):
return the cached status, `NotFound` when the id is absent. -/
def check_status (reg : Registry) (id : String) :
    Except AppError ProcessStatus :=
  match getApp reg id with
  | some app => Except.ok app.status
  | none => Except.error (AppError.NotFound id)

/-- `AppRuntime::list_status` (`appruntime/src/lib.rs` lines 304-311):
all (id, cached status) pairs in insertion order. -/
def list_status (reg : Registry) : List (String × ProcessStatus) :=
  reg.map (fun p => (p.id, p.status))

/-- Per-entry body of `AppRuntime::update_status`
(`appruntime/src/lib.rs` lines 313-326, identical in
`appflow-std/src/runtime.rs` lines 230-243): for every entry whose
`process` handle is `Some` — regardless of the cached status — call
`try_wait`; `Ok(Some(_))` sets `Stopped`, `Ok(None)` sets `Running`,
`Err(_)` is skipped by the `if let Ok`.  The handle is never cleared and
no other field is written. -/
def update_status_entry (os : OS) (app : AppProcess) : AppProcess :=
  match app.process with
  | none => app
  | some pid =>
    match os.tryWaitRes pid with
    | none => app
    | some (some _) => { app with status := ProcessStatus.Stopped }
    | some none => { app with status := ProcessStatus.Running }

/-- `AppRuntime::update_status` (`appruntime/src/lib.rs` lines 313-326):
the loop over `apps.values_mut()`. -/
def update_status (os : OS) (reg : Registry) : Registry :=
  reg.map (update_status_entry os)

/-- Effect of `impl Drop for AppRuntime` in `appflow-std/src/runtime.rs`
lines 257-263: synchronously runs `self.stop_all().log()`, discarding
the result. -/
def std_drop (os : OS) (reg : Registry) : OS × Registry :=
  match stop_all os reg with
  | (os1, reg1, _) => (os1, reg1)

/-- Executed effect of `impl Drop for AppRuntime` in
`appruntime/src/lib.rs` lines 340-349.  The body is
`let y = std::mem::take(self); spawn_blocking(|| async move
{ ... y.stop_all().await ... })`.  The closure handed to
`tokio::task::spawn_blocking` merely CONSTRUCTS the `async move` block
and returns it as the blocking task's output value; no code ever awaits
or polls that future, so the `stop_all` (and hence every kill) inside it
is never executed.  The only synchronous effects are the `mem::take`
swap and scheduling the blocking task — neither stops a process nor
writes any entry, so the executed effect on registry and OS state is the
identity. -/
def drop_tokio (os : OS) (reg : Registry) : OS × Registry :=
  (os, reg)

/-- Which of the two `tokio::select!` arms of `Appflow::init`
(`appflow/src/lib.rs` lines 198-210) completes first. -/
inductive SelectWinner
  | signalFirst
  | mainFirst
deriving DecidableEq, Repr

/-- Number of `cleanup()` invocations `Appflow::init`
(`appflow/src/lib.rs` lines 198-210) performs, as a function of which
select arm wins: the `signal::ctrl_c()` arm runs
`s_clone.cleanup().await`; the `s.main_process()` arm's handler is the
empty block `{}` — it runs no cleanup. -/
def init_cleanups : SelectWinner → Nat
  | SelectWinner.signalFirst => 1
  | SelectWinner.mainFirst => 0

/-- First event observed by the std `Appflow::init`
(`appflow-std/src/lib.rs` lines 37-69): the ctrl-c handler sending on
the channel, the worker thread sending after `main_process` returned
`Ok`, or `main_process` returning `Err` — in which case `.expect(...)`
aborts the worker thread before it can send. -/
inductive StdFirstEvent
  | signalFirst
  | mainOkFirst
  | mainErrFirst
deriving DecidableEq, Repr

/-- Number of `cleanup()` invocations the std `Appflow::init`
(`appflow-std/src/lib.rs` lines 37-69) performs for each first event:
`rx.recv()` returns on the first message and then `m.cleanup()` runs
once; when `main_process` returns `Err`, the worker thread panics in
`.expect` without sending, so `recv` stays blocked and no cleanup
runs. -/
def std_init_cleanups : StdFirstEvent → Nat
  | StdFirstEvent.signalFirst => 1
  | StdFirstEvent.mainOkFirst => 1
  | StdFirstEvent.mainErrFirst => 0

/-- Observable steps of `Appflow::restart` (`appflow/src/lib.rs` lines
179-193 and `appflow-std/src/lib.rs` lines 17-31). -/
inductive RestartEvent
  | cleanupCalled
  | spawnAttempt (exe : String) (args : List String)
  | spawnErrorLogged
  | exitProcess (code : Nat)
deriving DecidableEq, Repr

/-- Event trace of `Appflow::restart` (`appflow/src/lib.rs` lines
179-193; the `appflow-std` variant at `appflow-std/src/lib.rs` lines
17-31 is identical in these steps): `cleanup()`; spawn the current
executable with the original arguments; `if let Err` log the spawn
failure; then unconditionally `std::process::exit(0)`.  Resolution of
`current_exe` is assumed to succeed (`.unwrap()` in the source). -/
def restart_events (exe : String) (args : List String) (spawnOk : Bool) :
    List RestartEvent :=
  [RestartEvent.cleanupCalled, RestartEvent.spawnAttempt exe args] ++
    (if spawnOk then [] else [RestartEvent.spawnErrorLogged]) ++
    [RestartEvent.exitProcess 0]

/-- Concrete id used in example registries. -/
def idA : String := "a"

/-- Concrete id used in example registries. -/
def idS : String := "s"

/-- Concrete id absent from example registries. -/
def idZ : String := "z"

/-- Concrete command name. -/
def cmdC : String := "c"

/-- Concrete command of a first registration. -/
def cmdOld : String := "old"

/-- Concrete command of a colliding second registration. -/
def cmdNew : String := "new"

/-- Concrete executable path for the orchestrator restart. -/
def exeApp : String := "app"

/-- Concrete argument. -/
def argX : String := "x"

/-- An OS in which every syscall succeeds and every polled child has
exited (`try_wait` returns `Ok(Some(status))`). -/
def osAll : OS :=
  { spawnOk := fun _ => true, killOk := fun _ => true, waitOk := fun _ => true,
    tryWaitRes := fun _ => some (some 0),
    spawnCount := 0, spawned := [], killed := [] }

/-- An OS in which every polled child is still alive
(`try_wait` returns `Ok(None)`). -/
def osAlive : OS := { osAll with tryWaitRes := fun _ => some none }

/-- A registered-but-never-started entry under id `"a"`. -/
def appOld : AppProcess :=
  { id := idA, command := cmdOld, process := none,
    status := ProcessStatus.Stopped, args := [] }

/-- A `Running` entry holding the child with pid 5. -/
def appRun5 : AppProcess :=
  { id := idA, command := cmdC, process := some 5,
    status := ProcessStatus.Running, args := [] }

/-- A `Stopped` entry that still holds the child handle with pid 5. -/
def appStop5 : AppProcess :=
  { id := idA, command := cmdC, process := some 5,
    status := ProcessStatus.Stopped, args := [] }

/-- A `Running` entry holding the child with pid 0. -/
def appRunning0 : AppProcess :=
  { id := idA, command := cmdC, process := some 0,
    status := ProcessStatus.Running, args := [] }

/-- A `Stopped` entry with one argument and no handle. -/
def appStoppedX : AppProcess :=
  { id := idA, command := cmdC, process := none,
    status := ProcessStatus.Stopped, args := [argX] }

/-- A `Stopped` entry under id `"s"` with no handle. -/
def appStopS : AppProcess :=
  { id := idS, command := cmdC, process := none,
    status := ProcessStatus.Stopped, args := [] }

/-- A one-entry registry whose entry is `Stopped`. -/
def regS : Registry := [appStopS]

theorem find_map_replace (app : AppProcess) (reg : Registry)
    (h : reg.any (fun p => decide (p.id = app.id)) = true) :
    (reg.map (fun p => if p.id = app.id then app else p)).find?
      (fun p => decide (p.id = app.id)) = some app := by
  induction reg with
  | nil => simp at h
  | cons q rest ih =>
    by_cases hq : q.id = app.id
    · simp [hq]
    · have h2 : rest.any (fun p => decide (p.id = app.id)) = true := by
        simpa [hq] using h
      simpa [hq] using ih h2

theorem find_append_self (app : AppProcess) (reg : Registry)
    (h : reg.any (fun p => decide (p.id = app.id)) = false) :
    (reg ++ [app]).find? (fun p => decide (p.id = app.id)) = some app := by
  induction reg with
  | nil => simp
  | cons q rest ih =>
    have hq : ¬(q.id = app.id) := by
      intro hx
      simp [hx] at h
    have h2 : rest.any (fun p => decide (p.id = app.id)) = false := by
      simpa [hq] using h
    simpa [hq] using ih h2

theorem getApp_indexInsert (reg : Registry) (app : AppProcess) :
    getApp (indexInsert reg app) app.id = some app := by
  by_cases h : reg.any (fun p => decide (p.id = app.id)) = true
  · unfold getApp indexInsert
    rw [if_pos h]
    exact find_map_replace app reg h
  · unfold getApp indexInsert
    rw [if_neg h]
    exact find_append_self app reg (by simpa using h)

theorem setFirst_getApp_self (reg : Registry) (id : String) (app : AppProcess)
    (h : getApp reg id = some app) : setFirst reg id app = reg := by
  induction reg with
  | nil => simp [getApp] at h
  | cons p rest ih =>
    by_cases hp : p.id = id
    · have hpa : p = app := by
        unfold getApp at h
        simp [List.find?, hp] at h
        exact h
      subst hpa
      simp [setFirst, hp]
    · have h2 : getApp rest id = some app := by
        unfold getApp at h ⊢
        simpa [List.find?, hp] using h
      simp [setFirst, hp, ih h2]

/-- C1: the claim says `register` (`add_process`) fails with
`DuplicateId` when the id is already present and leaves the existing
entry unchanged.  The code cannot fail (`add_process` returns `()` and
`AppError` has no `DuplicateId` variant) and `IndexMap::insert` silently
replaces the existing handle in place; evaluated here at a concrete
collision: registering a second spec under id `"a"` replaces the first
entry's handle, whose command visibly changes. -/
theorem C1_overwrite_eval :
    add_process [appOld] (AppProcess.new idA cmdNew []) =
      [AppProcess.new idA cmdNew []] ∧
    (AppProcess.new idA cmdNew []).command ≠ appOld.command := by
  constructor
  · decide
  · decide

/-- C2 counterexample: the claim says that when `main_process` completes
first, `cleanup()` still runs before the run ends.  In the tokio
`Appflow::init` (`appflow/src/lib.rs` lines 198-210) the select arm for
`main_process` has the empty handler `{}`, so zero cleanups run. -/
theorem C2_counterexample : init_cleanups SelectWinner.mainFirst = 0 := rfl

/-- C2 (amended): `cleanup()` is invoked at most once per orchestrator
run in both variants; the std orchestrator (`appflow-std`) runs it once
whichever activity wins (signal, or `main_process` returning `Ok`); the
tokio orchestrator (`appflow`) runs it only when the termination signal
wins the select — when `main_process` completes first no cleanup runs. -/
theorem C2_cleanup_paths :
    (∀ w, init_cleanups w ≤ 1) ∧
    init_cleanups SelectWinner.signalFirst = 1 ∧
    init_cleanups SelectWinner.mainFirst = 0 ∧
    (∀ e, std_init_cleanups e ≤ 1) ∧
    std_init_cleanups StdFirstEvent.signalFirst = 1 ∧
    std_init_cleanups StdFirstEvent.mainOkFirst = 1 :=
  ⟨fun w => by cases w <;> decide, rfl, rfl,
   fun e => by cases e <;> decide, rfl, rfl⟩

/-- C3 counterexample: the claim says that on spawn failure `restart()`
leaves the current process running.  In both `Appflow::restart` variants
(`appflow/src/lib.rs` lines 179-193, `appflow-std/src/lib.rs` lines
17-31) `std::process::exit(0)` is unconditional: the trace of a failed
spawn still contains the exit event. -/
theorem C3_counterexample :
    RestartEvent.exitProcess 0 ∈ restart_events exeApp [argX] false := by
  decide

/-- C3 (amended): on spawn failure `restart()` logs the failure, but in
every case — spawn success or failure — it unconditionally exits the
current process with code 0 after running `cleanup()` first; the spawn
failure is logged exactly when the spawn fails. -/
theorem C3_restart_always_exits :
    ∀ (exe : String) (args : List String) (ok : Bool),
      (∃ pre, restart_events exe args ok =
        pre ++ [RestartEvent.exitProcess 0]) ∧
      (RestartEvent.spawnErrorLogged ∈ restart_events exe args ok ↔
        ok = false) ∧
      (restart_events exe args ok).head? = some RestartEvent.cleanupCalled := by
  intro exe args ok
  cases ok with
  | true =>
    refine ⟨⟨[RestartEvent.cleanupCalled, RestartEvent.spawnAttempt exe args],
      rfl⟩, ?_, rfl⟩
    simp [restart_events]
  | false =>
    refine ⟨⟨[RestartEvent.cleanupCalled, RestartEvent.spawnAttempt exe args,
      RestartEvent.spawnErrorLogged], rfl⟩, ?_, rfl⟩
    simp [restart_events]

/-- C3 witness: the amended statement applied at a concrete failing
spawn. -/
theorem C3_witness :
    (∃ pre, restart_events exeApp [argX] false =
      pre ++ [RestartEvent.exitProcess 0]) ∧
    (RestartEvent.spawnErrorLogged ∈ restart_events exeApp [argX] false ↔
      false = false) ∧
    (restart_events exeApp [argX] false).head? =
      some RestartEvent.cleanupCalled :=
  C3_restart_always_exits exeApp [argX] false

/-- C5: the claim (and the impl's own doc comment, `appruntime/src/lib.rs`
line 339) says dropping the `AppRuntime` stops every tracked `Running`
process.  The tokio `Drop` hands `spawn_blocking` a closure that merely
constructs an `async` block and returns it; nothing ever awaits that
future, so `stop_all` never executes: a `Running` entry stays `Running`
and no kill is performed.  The `appflow-std` `Drop`, which calls
`stop_all` synchronously, does stop it and kill its pid. -/
theorem C5_drop_divergence :
    (drop_tokio osAll [appRunning0]).2 = [appRunning0] ∧
    (drop_tokio osAll [appRunning0]).1.killed = [] ∧
    ((std_drop osAll [appRunning0]).2).map (fun p => p.status) =
      [ProcessStatus.Stopped] ∧
    (std_drop osAll [appRunning0]).1.killed = [0] := by
  refine ⟨rfl, rfl, ?_, ?_⟩ <;> decide

/-- C8: immediately after `register(spec)` (`add_process` of
`AppProcess::new id cmd args`) and before any start, `check_status id`
returns `Stopped` and the stored entry's OS handle is `None` — for every
prior registry contents and every spec. -/
theorem C8_register_initial_state :
    ∀ (reg : Registry) (id cmd : String) (args : List String),
      check_status (add_process reg (AppProcess.new id cmd args)) id =
        Except.ok ProcessStatus.Stopped ∧
      (getApp (add_process reg (AppProcess.new id cmd args)) id).map
        (fun p => p.process) = some none := by
  intro reg id cmd args
  have h : getApp (add_process reg (AppProcess.new id cmd args)) id =
      some (AppProcess.new id cmd args) :=
    getApp_indexInsert reg (AppProcess.new id cmd args)
  refine ⟨?_, ?_⟩
  · unfold check_status
    rw [h]
    rfl
  · rw [h]
    rfl

/-- C10: `restart_process` on an id absent from the registry returns
`NotFound(id)` and leaves the registry (every entry's status, handle and
position) and the OS state completely unchanged. -/
theorem C10_restart_unknown (os : OS) (reg : Registry) (id : String)
    (h : getApp reg id = none) :
    restart_process os reg id = (os, reg, Except.error (AppError.NotFound id)) := by
  unfold restart_process
  rw [h]

/-- C10 witness: the unknown-id case evaluated at a concrete registry
that does not contain id `"z"`. -/
theorem C10_witness :
    restart_process osAll regS idZ =
      (osAll, regS, Except.error (AppError.NotFound idZ)) :=
  C10_restart_unknown osAll regS idZ (by decide)

/-- C4 counterexample: the claim says `update_status` polls only
entries whose cached status is `Running`, and that an exited entry's OS
handle is cleared (`os_handle` becomes `None`).  Concretely: a `Running`
entry whose child (pid 5) has exited is set `Stopped` but its handle is
retained (`some 5`, not `none`); and an already-`Stopped` entry holding
a still-alive handle is touched — its status is rewritten to `Running`. -/
theorem C4_counterexample :
    (update_status osAll [appRun5]).map (fun p => (p.status, p.process)) =
      [(ProcessStatus.Stopped, some 5)] ∧
    (update_status osAlive [appStop5]).map (fun p => p.status) =
      [ProcessStatus.Running] := by
  constructor
  · decide
  · decide

/-- C4 (amended): `update_status` polls OS liveness for exactly the
entries holding an OS handle, regardless of their cached status; a
polled entry whose process has exited is set `Stopped` and one still
alive is set `Running`, while a failed poll leaves the status alone; the
handle is never cleared, no other field of any entry is written, and
entries without a handle are untouched. -/
theorem C4_update_status_characterization (os : OS) (reg : Registry) :
    List.Forall₂ (fun p q =>
      q.id = p.id ∧ q.command = p.command ∧ q.args = p.args ∧
      q.process = p.process ∧
      (p.process = none → q = p) ∧
      (∀ pid, p.process = some pid →
        (os.tryWaitRes pid = none → q.status = p.status) ∧
        (os.tryWaitRes pid = some none →
          q.status = ProcessStatus.Running) ∧
        (∀ c, os.tryWaitRes pid = some (some c) →
          q.status = ProcessStatus.Stopped)))
      reg (update_status os reg) := by
  induction reg with
  | nil => exact List.Forall₂.nil
  | cons p rest ih =>
    refine List.Forall₂.cons ?_ ih
    cases hp : p.process with
    | none => simp [update_status_entry, hp]
    | some pid =>
      cases hw : os.tryWaitRes pid with
      | none => simp [update_status_entry, hp, hw]
      | some o =>
        cases o with
        | none => simp [update_status_entry, hp, hw]
        | some c => simp [update_status_entry, hp, hw]

/-- C4 witness: the characterization applied at a concrete registry and
OS. -/
theorem C4_witness :
    List.Forall₂ (fun p q =>
      q.id = p.id ∧ q.command = p.command ∧ q.args = p.args ∧
      q.process = p.process ∧
      (p.process = none → q = p) ∧
      (∀ pid, p.process = some pid →
        (osAll.tryWaitRes pid = none → q.status = p.status) ∧
        (osAll.tryWaitRes pid = some none →
          q.status = ProcessStatus.Running) ∧
        (∀ c, osAll.tryWaitRes pid = some (some c) →
          q.status = ProcessStatus.Stopped)))
      [appRun5] (update_status osAll [appRun5]) :=
  C4_update_status_characterization osAll [appRun5]

theorem stop_ok_stopped (os : OS) (app : AppProcess) (os1 : OS)
    (app1 : AppProcess) (h : stop os app = (os1, app1, Except.ok ())) :
    app1.status = ProcessStatus.Stopped := by
  unfold stop at h
  split at h
  · split at h
    · unfold OS.kill at h
      split at h
      · injection h with ha hb
        injection hb with hb1 hb2
        subst hb1
        rfl
      · injection h with ha hb
        injection hb with hb1 hb2
        exact absurd hb2 (by simp)
    · injection h with ha hb
      injection hb with hb1 hb2
      subst hb1
      rfl
  · next hns =>
      injection h with ha hb
      injection hb with hb1 hb2
      subst hb1
      cases hq : app.status with
      | Running => exact absurd hq hns
      | Stopped => rfl

theorem stop_stopped_noop (os : OS) (app : AppProcess)
    (h : app.status = ProcessStatus.Stopped) :
    stop os app = (os, app, Except.ok ()) := by
  simp [stop, h]

theorem stop_all_go_ok_stopped :
    ∀ (rest : List AppProcess) (os : OS) (done : Registry) (os1 : OS)
      (reg1 : Registry),
      stop_all_go os done rest = (os1, reg1, Except.ok ()) →
      (∀ p ∈ done, p.status = ProcessStatus.Stopped) →
      ∀ p ∈ reg1, p.status = ProcessStatus.Stopped := by
  intro rest
  induction rest with
  | nil =>
    intro os done os1 reg1 h hdone
    unfold stop_all_go at h
    injection h with ha hb
    injection hb with hb1 hb2
    subst hb1
    exact hdone
  | cons a rest ih =>
    intro os done os1 reg1 h hdone
    rcases hst : stop os a with ⟨osa, a1, ra⟩
    unfold stop_all_go at h
    rw [hst] at h
    cases ra with
    | error e => simp at h
    | ok u =>
      cases u
      refine ih osa (done ++ [a1]) os1 reg1 h ?_
      intro p hp
      rcases List.mem_append.mp hp with hmem | hmem
      · exact hdone p hmem
      · have hpa : p = a1 := by simpa using hmem
        subst hpa
        exact stop_ok_stopped os a osa p hst

theorem stop_all_go_all_stopped :
    ∀ (rest : List AppProcess) (os : OS) (done : Registry),
      (∀ p ∈ rest, p.status = ProcessStatus.Stopped) →
      stop_all_go os done rest = (os, done ++ rest, Except.ok ()) := by
  intro rest
  induction rest with
  | nil =>
    intro os done h
    simp [stop_all_go]
  | cons a rest ih =>
    intro os done h
    have ha : a.status = ProcessStatus.Stopped := h a (by simp)
    have hrest : ∀ p ∈ rest, p.status = ProcessStatus.Stopped :=
      fun p hp => h p (by simp [hp])
    have hred : stop_all_go os done (a :: rest) =
        stop_all_go os (done ++ [a]) rest := by
      simp [stop_all_go, stop_stopped_noop os a ha]
    rw [hred, ih os (done ++ [a]) hrest]
    simp

/-- C9: `stop_one` (`stop_process`) on an entry already `Stopped`
returns success and changes nothing (neither the registry nor the OS);
and whenever `stop_all` succeeds, every entry of the resulting registry
is `Stopped`, `list_status` reports all ids `Stopped`, and a second
`stop_all` on that registry succeeds while changing nothing — `stop_all`
is idempotent. -/
theorem C9_stop_idempotent (os : OS) (reg : Registry) (id : String)
    (app : AppProcess) (h1 : getApp reg id = some app)
    (h2 : app.status = ProcessStatus.Stopped) :
    stop_process os reg id = (os, reg, Except.ok ()) ∧
    (∀ (os1 os2 : OS) (reg2 : Registry),
      stop_all os1 reg = (os2, reg2, Except.ok ()) →
      (∀ p ∈ reg2, p.status = ProcessStatus.Stopped) ∧
      list_status reg2 = reg2.map (fun p => (p.id, ProcessStatus.Stopped)) ∧
      (∀ os3, stop_all os3 reg2 = (os3, reg2, Except.ok ()))) := by
  constructor
  · unfold stop_process
    rw [h1]
    simp only [stop_stopped_noop os app h2]
    rw [setFirst_getApp_self reg id app h1]
  · intro os1 os2 reg2 hall
    have hstopped :=
      stop_all_go_ok_stopped reg os1 [] os2 reg2 hall (by simp)
    refine ⟨hstopped, ?_, ?_⟩
    · unfold list_status
      exact List.map_congr_left (fun p hp => by rw [hstopped p hp])
    · intro os3
      have h3 := stop_all_go_all_stopped reg2 os3 [] hstopped
      simpa [stop_all] using h3

/-- C9 witness: the idempotence statement applied at a concrete one-entry
registry whose entry is already `Stopped`. -/
theorem C9_witness :
    stop_process osAll regS idS = (osAll, regS, Except.ok ()) ∧
    (∀ (os1 os2 : OS) (reg2 : Registry),
      stop_all os1 regS = (os2, reg2, Except.ok ()) →
      (∀ p ∈ reg2, p.status = ProcessStatus.Stopped) ∧
      list_status reg2 = reg2.map (fun p => (p.id, ProcessStatus.Stopped)) ∧
      (∀ os3, stop_all os3 reg2 = (os3, reg2, Except.ok ()))) :=
  C9_stop_idempotent osAll regS idS appStopS (by decide) (by decide)

theorem spawn_ok_spec (os : OS) (cmd : String) (args : List String)
    (os2 : OS) (pid : Nat)
    (h : os.spawn cmd args = (os2, Except.ok pid)) :
    os2.spawned = os.spawned ++ [⟨cmd, args⟩] := by
  unfold OS.spawn at h
  split at h
  · injection h with h1 h2
    subst h1
    rfl
  · injection h with h1 h2
    exact absurd h2 (by simp)

theorem killIfRunning_spawned (os : OS) (app : AppProcess) (os2 : OS)
    (r : Except AppError Unit) (h : killIfRunning os app = (os2, r)) :
    os2.spawned = os.spawned := by
  unfold killIfRunning at h
  split at h
  · split at h
    · unfold OS.kill at h
      split at h
      · injection h with h1 h2
        subst h1
        rfl
      · injection h with h1 h2
        subst h1
        rfl
    · injection h with h1 h2
      subst h1
      rfl
  · injection h with h1 h2
    subst h1
    rfl

theorem wait_os_unchanged (os : OS) (pid : Nat) (os2 : OS)
    (r : Except AppError Unit) (h : os.wait pid = (os2, r)) : os2 = os := by
  unfold OS.wait at h
  split at h
  · injection h with h1 h2
    exact h1.symm
  · injection h with h1 h2
    exact h1.symm

theorem spawn_killed (os : OS) (cmd : String) (args : List String)
    (os2 : OS) (r : Except AppError Nat)
    (h : os.spawn cmd args = (os2, r)) : os2.killed = os.killed := by
  unfold OS.spawn at h
  split at h
  · injection h with h1 h2
    subst h1
    rfl
  · injection h with h1 h2
    subst h1
    rfl

theorem kill_ok_killed (os : OS) (pid : Nat) (os2 : OS) (u : Unit)
    (h : os.kill pid = (os2, Except.ok u)) :
    os2.killed = os.killed ++ [pid] := by
  unfold OS.kill at h
  split at h
  · injection h with h1 h2
    subst h1
    rfl
  · injection h with h1 h2
    exact absurd h2 (by simp)

theorem killIfRunning_killed (os : OS) (app : AppProcess) (os2 : OS)
    (u : Unit) (h : killIfRunning os app = (os2, Except.ok u)) :
    (∀ pid0, app.status = ProcessStatus.Running → app.process = some pid0 →
      os2.killed = os.killed ++ [pid0]) ∧
    (app.status = ProcessStatus.Stopped → os2.killed = os.killed) ∧
    (app.process = none → os2.killed = os.killed) := by
  unfold killIfRunning at h
  split at h
  · next hrun =>
      split at h
      · next pid heq =>
          have hk := kill_ok_killed os pid os2 u h
          refine ⟨?_, ?_, ?_⟩
          · intro pid0 _ hp0
            rw [heq] at hp0
            injection hp0 with he
            subst he
            exact hk
          · intro hs
            rw [hs] at hrun
            exact absurd hrun (by simp)
          · intro hn
            rw [heq] at hn
            exact absurd hn (by simp)
      · next heq =>
          injection h with h1 h2
          subst h1
          refine ⟨?_, fun _ => rfl, fun _ => rfl⟩
          intro pid0 _ hp0
          rw [heq] at hp0
          exact absurd hp0 (by simp)
  · next hns =>
      injection h with h1 h2
      subst h1
      refine ⟨?_, fun _ => rfl, fun _ => rfl⟩
      intro pid0 hrun _
      exact absurd hrun hns

/-- C6 counterexample: the claim says a successful `restart_one` spawns
only a process from the same spec, same args, nothing added.  A
successful `AppRuntime::restart` (`appruntime/src/lib.rs` lines 156-181)
on a `Stopped` entry with args `["x"]` performs two spawns, the first
with the added `"--update"` flag. -/
theorem C6_counterexample :
    (restart osAll appStoppedX).2.2 = Except.ok () ∧
    (restart osAll appStoppedX).1.spawned =
      [⟨cmdC, [argX, updFlag]⟩, ⟨cmdC, [argX]⟩] := by
  constructor
  · rfl
  · rfl

/-- C6 (amended): on success, `restart_one` leaves the entry `Running`
under its unchanged id/command/args with a fresh OS handle, and when the
entry was `Running` with an OS handle the old process is killed first
(its pid is appended to the kill trace), while a `Stopped` entry or one
without a handle triggers no kill; the `appflow-std` variant spawns
exactly one process from the same command and the unmodified args, while
the `appruntime` variant first spawns and waits on the command with
`args ++ ["--update"]` (a verification run) and only then respawns with
the original args. -/
theorem C6_restart_characterization :
    ∀ (os : OS) (app : AppProcess) (os1 : OS) (app1 : AppProcess),
      (restart os app = (os1, app1, Except.ok ()) →
        app1.id = app.id ∧ app1.command = app.command ∧
        app1.args = app.args ∧ app1.status = ProcessStatus.Running ∧
        (∃ pid, app1.process = some pid) ∧
        os1.spawned = os.spawned ++
          [⟨app.command, app.args ++ [updFlag]⟩, ⟨app.command, app.args⟩] ∧
        (∀ pid0, app.status = ProcessStatus.Running →
          app.process = some pid0 → os1.killed = os.killed ++ [pid0]) ∧
        (app.status = ProcessStatus.Stopped → os1.killed = os.killed) ∧
        (app.process = none → os1.killed = os.killed)) ∧
      (std_restart_entry os app = (os1, app1, Except.ok ()) →
        app1.id = app.id ∧ app1.command = app.command ∧
        app1.args = app.args ∧ app1.status = ProcessStatus.Running ∧
        (∃ pid, app1.process = some pid) ∧
        os1.spawned = os.spawned ++ [⟨app.command, app.args⟩] ∧
        (∀ pid0, app.status = ProcessStatus.Running →
          app.process = some pid0 → os1.killed = os.killed ++ [pid0]) ∧
        (app.status = ProcessStatus.Stopped → os1.killed = os.killed) ∧
        (app.process = none → os1.killed = os.killed)) := by
  intro os app os1 app1
  constructor
  · intro h
    unfold restart at h
    split at h
    · simp at h
    · split at h
      · simp at h
      · split at h
        · simp at h
        · split at h
          · simp at h
          · rename_i xp1 osk u hk xp2 osa cpid hs1 xp3 osw u2 hw2 xp4 osb pid hs2
            simp only [Prod.mk.injEq] at h
            obtain ⟨hosb, happ, -⟩ := h
            subst hosb
            subst happ
            have e1 := killIfRunning_spawned os app osk (Except.ok u) hk
            have e2 := spawn_ok_spec osk app.command (app.args ++ [updFlag])
              osa cpid hs1
            have e3 := wait_os_unchanged osa cpid osw (Except.ok u2) hw2
            subst e3
            have e4 := spawn_ok_spec osw app.command app.args osb pid hs2
            have k0 := killIfRunning_killed os app osk u hk
            have k1 := spawn_killed osk app.command (app.args ++ [updFlag])
              osw (Except.ok cpid) hs1
            have k2 := spawn_killed osw app.command app.args
              osb (Except.ok pid) hs2
            refine ⟨rfl, rfl, rfl, rfl, ⟨pid, rfl⟩, ?_, ?_, ?_, ?_⟩
            · rw [e4, e2, e1]
              simp
            · intro pid0 hrun hp0
              rw [k2, k1]
              exact k0.1 pid0 hrun hp0
            · intro hs
              rw [k2, k1]
              exact k0.2.1 hs
            · intro hn
              rw [k2, k1]
              exact k0.2.2 hn
  · intro h
    unfold std_restart_entry at h
    split at h
    · simp at h
    · split at h
      · simp at h
      · rename_i xp1 osk u hk xp2 osa pid hs1
        simp only [Prod.mk.injEq] at h
        obtain ⟨hosa, happ, -⟩ := h
        subst hosa
        subst happ
        have e1 := killIfRunning_spawned os app osk (Except.ok u) hk
        have e2 := spawn_ok_spec osk app.command app.args osa pid hs1
        have k0 := killIfRunning_killed os app osk u hk
        have k2 := spawn_killed osk app.command app.args
          osa (Except.ok pid) hs1
        refine ⟨rfl, rfl, rfl, rfl, ⟨pid, rfl⟩, ?_, ?_, ?_, ?_⟩
        · rw [e2, e1]
        · intro pid0 hrun hp0
          rw [k2]
          exact k0.1 pid0 hrun hp0
        · intro hs
          rw [k2]
          exact k0.2.1 hs
        · intro hn
          rw [k2]
          exact k0.2.2 hn

/-- C6 witness: the `appruntime` half of the characterization applied at
a concrete successful restart of a `Running` entry holding the child
with pid 0, exercising the kill-the-old-process conjunct. -/
theorem C6_witness :
    (restart osAll appRunning0).2.1.id = appRunning0.id ∧
    (restart osAll appRunning0).2.1.command = appRunning0.command ∧
    (restart osAll appRunning0).2.1.args = appRunning0.args ∧
    (restart osAll appRunning0).2.1.status = ProcessStatus.Running ∧
    (∃ pid, (restart osAll appRunning0).2.1.process = some pid) ∧
    (restart osAll appRunning0).1.spawned = osAll.spawned ++
      [⟨appRunning0.command, appRunning0.args ++ [updFlag]⟩,
       ⟨appRunning0.command, appRunning0.args⟩] ∧
    (∀ pid0, appRunning0.status = ProcessStatus.Running →
      appRunning0.process = some pid0 →
      (restart osAll appRunning0).1.killed = osAll.killed ++ [pid0]) ∧
    (appRunning0.status = ProcessStatus.Stopped →
      (restart osAll appRunning0).1.killed = osAll.killed) ∧
    (appRunning0.process = none →
      (restart osAll appRunning0).1.killed = osAll.killed) :=
  (C6_restart_characterization osAll appRunning0
    (restart osAll appRunning0).1 (restart osAll appRunning0).2.1).1 rfl

theorem startedFrom_status :
    ∀ (base : Nat) (l : List AppProcess),
      (startedFrom base l).map (fun p => (p.id, p.status)) =
        l.map (fun a => (a.id, ProcessStatus.Running)) := by
  intro base l
  induction l generalizing base with
  | nil => rfl
  | cons a l ih => simp [startedFrom, startedEntry, ih]

theorem start_all_go_spec :
    ∀ (rest : List AppProcess) (os : OS) (done : Registry),
      ∃ k, k ≤ rest.length ∧
        (start_all_go os done rest).2.1 =
          done ++ startedFrom os.spawnCount (rest.take k) ++ rest.drop k ∧
        ((start_all_go os done rest).2.2 = Except.ok () ↔
          k = rest.length) ∧
        (∀ i, i < k → os.spawnOk (os.spawnCount + i) = true) ∧
        (k < rest.length → os.spawnOk (os.spawnCount + k) = false ∧
          (start_all_go os done rest).2.2 =
            Except.error (AppError.SubProcess (os.spawnCount + k))) := by
  intro rest
  induction rest with
  | nil =>
    intro os done
    refine ⟨0, by simp, by simp [start_all_go, startedFrom],
      by simp [start_all_go], ?_, ?_⟩
    · intro i hi
      exact absurd hi (Nat.not_lt_zero i)
    · intro hk
      simp at hk
  | cons a rest ih =>
    intro os done
    by_cases hs : os.spawnOk os.spawnCount
    · have hred : start_all_go os done (a :: rest) =
          start_all_go
            { os with spawnCount := os.spawnCount + 1,
                      spawned := os.spawned ++ [⟨a.command, a.args⟩] }
            (done ++ [startedEntry os.spawnCount a]) rest := by
        simp [start_all_go, OS.spawn, hs]
      obtain ⟨k, hk, h1, h2, h3, h4⟩ :=
        ih { os with spawnCount := os.spawnCount + 1,
                     spawned := os.spawned ++ [⟨a.command, a.args⟩] }
           (done ++ [startedEntry os.spawnCount a])
      refine ⟨k + 1, by simpa using Nat.succ_le_succ hk, ?_, ?_, ?_, ?_⟩
      · rw [hred, h1]
        simp [startedFrom, List.append_assoc]
      · rw [hred, h2]
        have hlen : (a :: rest).length = rest.length + 1 := by simp
        constructor
        · intro hx
          omega
        · intro hx
          omega
      · intro i hi
        cases i with
        | zero => simpa using hs
        | succ j =>
          have hj := h3 j (by omega)
          have he : os.spawnCount + (j + 1) = os.spawnCount + 1 + j := by
            omega
          rw [he]
          exact hj
      · intro hlt
        have hk2 : k < rest.length := by
          simpa using Nat.lt_of_succ_lt_succ hlt
        obtain ⟨hfo, hfe⟩ := h4 hk2
        have he : os.spawnCount + (k + 1) = os.spawnCount + 1 + k := by
          omega
        constructor
        · rw [he]
          exact hfo
        · rw [hred, he]
          exact hfe
    · have hred : start_all_go os done (a :: rest) =
          ({ os with spawnCount := os.spawnCount + 1 }, done ++ a :: rest,
            Except.error (AppError.SubProcess os.spawnCount)) := by
        simp [start_all_go, OS.spawn, hs]
      refine ⟨0, by simp, ?_, ?_, ?_, ?_⟩
      · rw [hred]
        simp [startedFrom]
      · rw [hred]
        constructor
        · intro hx
          simp at hx
        · intro hx
          exfalso
          have hlen : (a :: rest).length = rest.length + 1 := by simp
          omega
      · intro i hi
        exact absurd hi (Nat.not_lt_zero i)
      · intro _
        refine ⟨by simpa using hs, ?_⟩
        rw [hred]
        simp

/-- C7: `start_all` walks the registry in insertion order: there is a
cut point k such that the first k entries were spawned (consecutive
fresh pids, status `Running`, other fields kept) while the entries from
k on are untouched; the operation succeeds exactly when k covers the
whole registry, and otherwise the k-th spawn is the first failure and
its error is returned, with the k already-started entries keeping
`Running`; `list_status` accordingly reports the first k ids `Running`
and the rest with their prior status, in registration order — in
particular, after a fully successful `start_all` on N specs it reports
all N ids `Running` in registration order. -/
theorem C7_start_all_spec :
    ∀ (os : OS) (reg : Registry), ∃ k, k ≤ reg.length ∧
      (start_all os reg).2.1 =
        startedFrom os.spawnCount (reg.take k) ++ reg.drop k ∧
      ((start_all os reg).2.2 = Except.ok () ↔ k = reg.length) ∧
      (∀ i, i < k → os.spawnOk (os.spawnCount + i) = true) ∧
      (k < reg.length → os.spawnOk (os.spawnCount + k) = false ∧
        (start_all os reg).2.2 =
          Except.error (AppError.SubProcess (os.spawnCount + k))) ∧
      list_status (start_all os reg).2.1 =
        (reg.take k).map (fun a => (a.id, ProcessStatus.Running)) ++
        (reg.drop k).map (fun a => (a.id, a.status)) := by
  intro os reg
  obtain ⟨k, hk, h1, h2, h3, h4⟩ := start_all_go_spec reg os []
  have h1n : (start_all os reg).2.1 =
      startedFrom os.spawnCount (reg.take k) ++ reg.drop k := by
    simpa [start_all] using h1
  refine ⟨k, hk, h1n, h2, h3, h4, ?_⟩
  rw [h1n]
  unfold list_status
  rw [List.map_append, startedFrom_status]

/-- C7 witness: the start_all characterization applied at a concrete
one-entry registry and an all-successful OS. -/
theorem C7_witness :
    ∃ k, k ≤ ([appStoppedX] : Registry).length ∧
      (start_all osAll [appStoppedX]).2.1 =
        startedFrom osAll.spawnCount (([appStoppedX] : Registry).take k) ++
          ([appStoppedX] : Registry).drop k ∧
      ((start_all osAll [appStoppedX]).2.2 = Except.ok () ↔
        k = ([appStoppedX] : Registry).length) ∧
      (∀ i, i < k → osAll.spawnOk (osAll.spawnCount + i) = true) ∧
      (k < ([appStoppedX] : Registry).length →
        osAll.spawnOk (osAll.spawnCount + k) = false ∧
        (start_all osAll [appStoppedX]).2.2 =
          Except.error (AppError.SubProcess (osAll.spawnCount + k))) ∧
      list_status (start_all osAll [appStoppedX]).2.1 =
        (([appStoppedX] : Registry).take k).map
          (fun a => (a.id, ProcessStatus.Running)) ++
        (([appStoppedX] : Registry).drop k).map
          (fun a => (a.id, a.status)) :=
  C7_start_all_spec osAll [appStoppedX]

end Supervisor
